import Mathlib

/-!
Verification of the LiveAgent → BigQuery synchronization and conversation
enrichment pipeline (mechanigo).  The definitions below are a shallow
embedding of the Python source under `src/`; theorems settle the frozen
claims about the specification.
-/

namespace Mechanigo

/-- Value stored in a query-parameter dictionary (the `payload` dict passed to
`LiveAgentClient.paginate`): the Python dict holds both strings (for example
`_filters`) and integers (`_page`, `_perPage`). -/
inductive PVal where
  | s (v : String)
  | n (v : Nat)
deriving DecidableEq, Repr

/-- A Python dict of query parameters, as an ordered association list
(insertion order; keys kept unique by `Payload.set`). -/
abbrev Payload := List (String × PVal)

/-- Python dict assignment `payload[k] = v`: overwrite in place when the key is
already present, otherwise append the new binding at the end. -/
def Payload.set (pl : Payload) (k : String) (v : PVal) : Payload :=
  if pl.any (fun p => p.1 == k) then
    pl.map (fun p => if p.1 == k then (k, v) else p)
  else
    pl ++ [(k, v)]

/-- Python dict read `payload.get(k)`: the value of the first (and, under
`Payload.set` discipline, only) binding of the key. -/
def Payload.lookup : Payload → String → Option PVal
  | [], _ => none
  | p :: ps, k => if p.1 == k then some p.2 else Payload.lookup ps k

/-- Result of one page request inside `LiveAgentClient.paginate`
(src/core/liveagent.py lines 93 to 98): either the JSON list of records of the
page (after unwrapping an object's `data` member), or a transport error
(`aiohttp.ClientError`). -/
inductive PageResult (α : Type) where
  | ok (records : List α)
  | err
deriving DecidableEq, Repr

/-- Why the pagination loop of `LiveAgentClient.paginate` stopped iterating. -/
inductive StopReason where
  | emptyPage
  | transportError
  | maxPagesReached
deriving DecidableEq, Repr

/-- Observable outcome of one call to `LiveAgentClient.paginate`:
`records` is the returned `all_data` accumulator, `requests` counts the page
requests actually issued, `dataPages` counts the pages that returned at least
one record, `payload` is the state of the caller's query dict after the call,
and `stop` records which loop exit was taken. -/
structure PaginateResult (α : Type) where
  records : List α
  requests : Nat
  dataPages : Nat
  payload : Payload
  stop : StopReason
deriving DecidableEq, Repr

/-- Loop body of `LiveAgentClient.paginate` (src/core/liveagent.py lines
88 to 107).  The Python loop runs `while page <= max_pages`; starting from
`page`, the remaining number of admissible iterations is the fuel
`max_pages - page + 1`.  Each iteration first executes
`payload["_page"] = page`, then issues the request; an `aiohttp.ClientError`
breaks the loop (partial `all_data` kept), an empty page breaks the loop, and
a non-empty page extends `all_data` and increments the counter. -/
def paginateGo (fetch : Nat → PageResult α) :
    Nat → Nat → List α → Payload → PaginateResult α
  | 0, _, acc, pl => ⟨acc, 0, 0, pl, StopReason.maxPagesReached⟩
  | fuel + 1, page, acc, pl =>
    let pl' := Payload.set pl "_page" (PVal.n page)
    match fetch page with
    | PageResult.err => ⟨acc, 1, 0, pl', StopReason.transportError⟩
    | PageResult.ok [] => ⟨acc, 1, 0, pl', StopReason.emptyPage⟩
    | PageResult.ok (r :: rs) =>
      let rest := paginateGo fetch fuel (page + 1) (acc ++ r :: rs) pl'
      ⟨rest.records, rest.requests + 1, rest.dataPages + 1, rest.payload, rest.stop⟩

/-- `LiveAgentClient.paginate(url, payload, headers, max_pages)`: the page
counter starts at 1 and the accumulator starts empty. -/
def paginate (fetch : Nat → PageResult α) (maxPages : Nat) (payload : Payload) :
    PaginateResult α :=
  paginateGo fetch maxPages 1 [] payload

theorem paginateGo_succ_err (fetch : Nat → PageResult α) (fuel page : Nat)
    (acc : List α) (pl : Payload) (h : fetch page = PageResult.err) :
    paginateGo fetch (fuel + 1) page acc pl
      = ⟨acc, 1, 0, Payload.set pl "_page" (PVal.n page), StopReason.transportError⟩ := by
  simp [paginateGo, h]

theorem paginateGo_succ_empty (fetch : Nat → PageResult α) (fuel page : Nat)
    (acc : List α) (pl : Payload) (h : fetch page = PageResult.ok []) :
    paginateGo fetch (fuel + 1) page acc pl
      = ⟨acc, 1, 0, Payload.set pl "_page" (PVal.n page), StopReason.emptyPage⟩ := by
  simp [paginateGo, h]

theorem paginateGo_succ_cons (fetch : Nat → PageResult α) (fuel page : Nat)
    (acc : List α) (pl : Payload) (r : α) (rs : List α)
    (h : fetch page = PageResult.ok (r :: rs)) :
    paginateGo fetch (fuel + 1) page acc pl
      = ⟨(paginateGo fetch fuel (page + 1) (acc ++ r :: rs)
            (Payload.set pl "_page" (PVal.n page))).records,
         (paginateGo fetch fuel (page + 1) (acc ++ r :: rs)
            (Payload.set pl "_page" (PVal.n page))).requests + 1,
         (paginateGo fetch fuel (page + 1) (acc ++ r :: rs)
            (Payload.set pl "_page" (PVal.n page))).dataPages + 1,
         (paginateGo fetch fuel (page + 1) (acc ++ r :: rs)
            (Payload.set pl "_page" (PVal.n page))).payload,
         (paginateGo fetch fuel (page + 1) (acc ++ r :: rs)
            (Payload.set pl "_page" (PVal.n page))).stop⟩ := by
  simp [paginateGo, h]

/-- A remote backend holding the record list `L`, served at a fixed page size
`P`: page `p` (1-based) returns the records at indices `(p-1)*P` up to
`p*P` exclusive, so pages past the data return the empty list. -/
def pageFetch (L : List α) (P : Nat) : Nat → PageResult α :=
  fun page => PageResult.ok ((L.drop ((page - 1) * P)).take P)

/-- Ceiling division on naturals, used to state the page-count property. -/
def ceilDiv (a b : Nat) : Nat := (a + b - 1) / b

/-- Concatenation of the data of pages `start, start+1, ..., start+n-1`
as served by `fetch` (error pages contribute nothing). -/
def pagesData (fetch : Nat → PageResult α) : Nat → Nat → List α
  | _, 0 => []
  | start, n + 1 =>
    (match fetch start with
     | PageResult.ok d => d
     | PageResult.err => []) ++ pagesData fetch (start + 1) n

theorem ceilDiv_of_pos {m P : Nat} (hm : 0 < m) (hP : 0 < P) :
    ceilDiv m P = (m - 1) / P + 1 := by
  unfold ceilDiv
  have h1 : m + P - 1 = (m - 1) + P := by omega
  rw [h1, Nat.add_div_right _ hP]

theorem ceilDiv_zero_left (P : Nat) : ceilDiv 0 P = 0 := by
  unfold ceilDiv
  rcases Nat.eq_zero_or_pos P with h | h
  · simp [h]
  · exact Nat.div_eq_of_lt (by omega)

theorem ceilDiv_sub_step {m P : Nat} (hm : 0 < m) (hP : 0 < P) :
    ceilDiv m P = ceilDiv (m - P) P + 1 := by
  rcases le_or_lt m P with h | h
  · have h0 : m - P = 0 := by omega
    rw [h0, ceilDiv_zero_left, ceilDiv_of_pos hm hP, Nat.div_eq_of_lt (by omega)]
  · rw [ceilDiv_of_pos hm hP, ceilDiv_of_pos (by omega) hP]
    have h1 : m - 1 = (m - P - 1) + P := by omega
    rw [h1, Nat.add_div_right _ hP]

theorem paginateGo_pageFetch (L : List α) (P : Nat) (hP : 0 < P) :
    ∀ (fuel q : Nat) (acc : List α) (pl : Payload),
      (paginateGo (pageFetch L P) fuel (q + 1) acc pl).records
          = acc ++ (L.drop (q * P)).take (fuel * P)
      ∧ (paginateGo (pageFetch L P) fuel (q + 1) acc pl).dataPages
          = min (ceilDiv (L.length - q * P) P) fuel
      ∧ (paginateGo (pageFetch L P) fuel (q + 1) acc pl).requests
          = min (ceilDiv (L.length - q * P) P + 1) fuel := by
  intro fuel
  induction fuel with
  | zero =>
    intro q acc pl
    simp [paginateGo]
  | succ fuel ih =>
    intro q acc pl
    cases hM : (L.drop (q * P)).take P with
    | nil =>
      have hdrop : L.drop (q * P) = [] := by
        rcases List.take_eq_nil_iff.mp hM with h | h
        · omega
        · exact h
      have hlen : L.length - q * P = 0 := by
        have := List.drop_eq_nil_iff.mp hdrop
        omega
      refine ⟨?_, ?_, ?_⟩
      · simp [paginateGo, pageFetch, hM, hdrop]
      · simp [paginateGo, pageFetch, hM, hlen, ceilDiv_zero_left]
      · simp [paginateGo, pageFetch, hM, hlen, ceilDiv_zero_left]
    | cons r rs =>
      have hm : 0 < L.length - q * P := by
        by_contra h
        have hge : L.length ≤ q * P := by omega
        rw [List.drop_eq_nil_iff.mpr hge] at hM
        simp at hM
      have hmul : (q + 1) * P = q * P + P := by ring
      have hdd : L.drop ((q + 1) * P) = (L.drop (q * P)).drop P := by
        rw [List.drop_drop, hmul]
      have hsub : L.length - (q + 1) * P = (L.length - q * P) - P := by
        omega
      obtain ⟨ihr, ihd, ihq⟩ :=
        ih (q + 1) (acc ++ r :: rs) (Payload.set pl "_page" (PVal.n (q + 1)))
      have hcd : ceilDiv (L.length - q * P) P
          = ceilDiv (L.length - (q + 1) * P) P + 1 := by
        rw [hsub]
        exact ceilDiv_sub_step hm hP
      refine ⟨?_, ?_, ?_⟩
      · show (paginateGo (pageFetch L P) (fuel + 1) (q + 1) acc pl).records = _
        simp only [paginateGo, pageFetch, Nat.add_sub_cancel, hM]
        rw [ihr, hdd]
        have h1 : (fuel + 1) * P = P + fuel * P := by ring
        rw [h1, List.take_add, hM, List.append_assoc]
      · show (paginateGo (pageFetch L P) (fuel + 1) (q + 1) acc pl).dataPages = _
        simp only [paginateGo, pageFetch, Nat.add_sub_cancel, hM]
        rw [ihd, hcd]
        omega
      · show (paginateGo (pageFetch L P) (fuel + 1) (q + 1) acc pl).requests = _
        simp only [paginateGo, pageFetch, Nat.add_sub_cancel, hM]
        rw [ihq, hcd]
        omega

theorem paginateGo_err (fetch : Nat → PageResult α) :
    ∀ (fuel q : Nat) (acc : List α) (pl : Payload) (e : Nat),
      q + 1 ≤ e → e < q + 1 + fuel →
      fetch e = PageResult.err →
      (∀ k, q + 1 ≤ k → k < e → ∃ r rs, fetch k = PageResult.ok (r :: rs)) →
      (paginateGo fetch fuel (q + 1) acc pl).stop = StopReason.transportError
      ∧ (paginateGo fetch fuel (q + 1) acc pl).requests = e - q
      ∧ (paginateGo fetch fuel (q + 1) acc pl).records
          = acc ++ pagesData fetch (q + 1) (e - (q + 1)) := by
  intro fuel
  induction fuel with
  | zero =>
    intro q acc pl e h1 h2 _ _
    omega
  | succ fuel ih =>
    intro q acc pl e h1 h2 herr hok
    rcases Nat.eq_or_lt_of_le h1 with heq | hlt
    · have he : fetch (q + 1) = PageResult.err := by rw [heq]; exact herr
      refine ⟨?_, ?_, ?_⟩
      · simp [paginateGo, he]
      · simp [paginateGo, he]
        omega
      · have hz : e - (q + 1) = 0 := by omega
        simp [paginateGo, he, hz, pagesData]
    · obtain ⟨r, rs, hr⟩ := hok (q + 1) (by omega) (by omega)
      obtain ⟨ihs, ihq, ihr⟩ :=
        ih (q + 1) (acc ++ r :: rs) (Payload.set pl "_page" (PVal.n (q + 1))) e
          (by omega) (by omega) herr
          (fun k hk1 hk2 => hok k (by omega) hk2)
      refine ⟨?_, ?_, ?_⟩
      · simp only [paginateGo, hr]
        exact ihs
      · simp only [paginateGo, hr]
        rw [ihq]
        omega
      · simp only [paginateGo, hr]
        rw [ihr]
        have hsucc : e - (q + 1) = (e - (q + 1 + 1)) + 1 := by omega
        rw [hsucc]
        simp only [pagesData, hr]
        rw [List.append_assoc]

/-- C2.  For every endpoint, query payload and maxPages at least 1, `paginate`
starts its page counter at 1 (first conjunct, definitional); against a backend
holding the list `L` of records served at fixed page size `P` it returns every
record up to the `maxPages` cap, fetches exactly `min (ceil |L| / P) maxPages`
pages of data, and issues `min (ceil |L| / P + 1) maxPages` page requests (the
extra request is the empty page that signals exhaustion); and when the first
transport error occurs on page `e` within the cap, the loop stops there with
exactly the records of the earlier pages — partial results are returned. -/
theorem paginate_window_and_errors :
    (∀ (α : Type) (fetch : Nat → PageResult α) (mp : Nat) (pl : Payload),
      paginate fetch mp pl = paginateGo fetch mp 1 [] pl)
    ∧ (∀ (α : Type) (L : List α) (P mp : Nat) (pl : Payload), 0 < P → 1 ≤ mp →
      (paginate (pageFetch L P) mp pl).records = L.take (mp * P)
      ∧ (paginate (pageFetch L P) mp pl).dataPages = min (ceilDiv L.length P) mp
      ∧ (paginate (pageFetch L P) mp pl).requests = min (ceilDiv L.length P + 1) mp)
    ∧ (∀ (α : Type) (fetch : Nat → PageResult α) (mp e : Nat) (pl : Payload),
      1 ≤ e → e ≤ mp → fetch e = PageResult.err →
      (∀ k, 1 ≤ k → k < e → ∃ r rs, fetch k = PageResult.ok (r :: rs)) →
      (paginate fetch mp pl).stop = StopReason.transportError
      ∧ (paginate fetch mp pl).requests = e
      ∧ (paginate fetch mp pl).records = pagesData fetch 1 (e - 1)) := by
  refine ⟨fun α fetch mp pl => rfl, ?_, ?_⟩
  · intro α L P mp pl hP _
    obtain ⟨hr, hd, hq⟩ := paginateGo_pageFetch L P hP mp 0 [] pl
    simp only [Nat.zero_mul, List.drop_zero, List.nil_append] at hr hd hq
    exact ⟨hr, by simpa using hd, by simpa using hq⟩
  · intro α fetch mp e pl he1 he2 herr hok
    obtain ⟨hs, hq, hr⟩ :=
      paginateGo_err fetch mp 0 [] pl e (by omega) (by omega) herr
        (fun k hk1 hk2 => hok k hk1 hk2)
    simp only [Nat.zero_add, Nat.sub_zero, List.nil_append] at hs hq hr
    exact ⟨hs, hq, hr⟩

/-- Witness for C2: a backend with three records served two per page, queried
with a five page cap, yields all three records, two pages of data and three
page requests (the third request observes the empty page). -/
theorem paginate_window_and_errors_witness :
    (paginate (pageFetch [10, 20, 30] 2) 5 []).records = [10, 20, 30]
    ∧ (paginate (pageFetch [10, 20, 30] 2) 5 []).dataPages = 2
    ∧ (paginate (pageFetch [10, 20, 30] 2) 5 []).requests = 3 := by
  obtain ⟨h1, h2, h3⟩ :=
    paginate_window_and_errors.2.1 Nat [10, 20, 30] 2 5 [] (by decide) (by decide)
  refine ⟨?_, ?_, ?_⟩
  · rw [h1]; decide
  · rw [h2]; decide
  · rw [h3]; decide

theorem Payload.set_of_hit (k : String) (v : PVal) (pl : Payload)
    (h : (pl.any fun p => p.1 == k) = true) :
    Payload.set pl k v = pl.map fun p => if p.1 == k then (k, v) else p := by
  unfold Payload.set
  rw [if_pos h]

theorem Payload.set_of_no_hit (k : String) (v : PVal) (pl : Payload)
    (h : (pl.any fun p => p.1 == k) = false) :
    Payload.set pl k v = pl ++ [(k, v)] := by
  unfold Payload.set
  rw [if_neg]
  simp [h]

theorem Payload.lookup_map_set_same (k : String) (v : PVal) :
    ∀ l : Payload, (l.any fun p => p.1 == k) = true →
      Payload.lookup (l.map fun p => if p.1 == k then (k, v) else p) k = some v := by
  intro l
  induction l with
  | nil => simp
  | cons a t ih =>
    intro h
    by_cases hak : a.1 = k
    · simp [Payload.lookup, hak]
    · have ht : (t.any fun p => p.1 == k) = true := by
        simpa [hak] using h
      simpa [Payload.lookup, hak] using ih ht

theorem Payload.lookup_append_same (k : String) (v : PVal) :
    ∀ l : Payload, (l.any fun p => p.1 == k) = false →
      Payload.lookup (l ++ [(k, v)]) k = some v := by
  intro l
  induction l with
  | nil => simp [Payload.lookup]
  | cons a t ih =>
    intro h
    simp only [List.any_cons, Bool.or_eq_false_iff] at h
    have hak : ¬a.1 = k := by simpa using h.1
    simpa [Payload.lookup, hak] using ih h.2

theorem Payload.lookup_set_same (k : String) (v : PVal) :
    ∀ pl : Payload, Payload.lookup (Payload.set pl k v) k = some v := by
  intro pl
  by_cases h : (pl.any fun p => p.1 == k) = true
  · rw [Payload.set_of_hit k v pl h]
    exact Payload.lookup_map_set_same k v pl h
  · have hf : (pl.any fun p => p.1 == k) = false := by
      simp only [Bool.not_eq_true] at h
      exact h
    rw [Payload.set_of_no_hit k v pl hf]
    exact Payload.lookup_append_same k v pl hf

theorem Payload.map_set_of_no_hit (k : String) (v : PVal) :
    ∀ l : Payload, (l.any fun p => p.1 == k) = false →
      (l.map fun p => if p.1 == k then (k, v) else p) = l := by
  intro l
  induction l with
  | nil => simp
  | cons a t ih =>
    intro h
    simp only [List.any_cons, Bool.or_eq_false_iff] at h
    have h1 : ¬a.1 = k := by simpa using h.1
    simpa [h1] using ih h.2

theorem Payload.any_map_set (k : String) (v : PVal) (l : Payload)
    (h : (l.any fun p => p.1 == k) = true) :
    ((l.map fun p => if p.1 == k then (k, v) else p).any fun p => p.1 == k) = true := by
  rw [List.any_map]
  rw [List.any_eq_true] at h ⊢
  obtain ⟨p, hp, hpk⟩ := h
  refine ⟨p, hp, ?_⟩
  have h1 : p.1 = k := by simpa using hpk
  simp [Function.comp, h1]

theorem Payload.map_set_map_set (k : String) (v w : PVal) (l : Payload) :
    ((l.map fun p => if p.1 == k then (k, v) else p).map
        fun p => if p.1 == k then (k, w) else p)
      = l.map fun p => if p.1 == k then (k, w) else p := by
  rw [List.map_map]
  apply List.map_congr_left
  intro p _
  by_cases hp : p.1 = k
  · simp [Function.comp, hp]
  · simp [Function.comp, hp]

theorem Payload.set_set (k : String) (v w : PVal) :
    ∀ pl : Payload, Payload.set (Payload.set pl k v) k w = Payload.set pl k w := by
  intro pl
  by_cases h : (pl.any fun p => p.1 == k) = true
  · rw [Payload.set_of_hit k v pl h,
      Payload.set_of_hit k w (pl.map fun p => if p.1 == k then (k, v) else p)
        (Payload.any_map_set k v pl h),
      Payload.map_set_map_set, Payload.set_of_hit k w pl h]
  · have hf : (pl.any fun p => p.1 == k) = false := by
      simp only [Bool.not_eq_true] at h
      exact h
    have hany : ((pl ++ [(k, v)]).any fun p => p.1 == k) = true := by
      simp [List.any_append]
    rw [Payload.set_of_no_hit k v pl hf,
      Payload.set_of_hit k w (pl ++ [(k, v)]) hany, List.map_append,
      Payload.map_set_of_no_hit k w pl hf, Payload.set_of_no_hit k w pl hf]
    simp

theorem Payload.lookup_map_set_other (k k' : String) (v : PVal) (hk : k' ≠ k) :
    ∀ l : Payload,
      Payload.lookup (l.map fun p => if p.1 == k then (k, v) else p) k'
        = Payload.lookup l k' := by
  intro l
  have hkk : ¬k = k' := fun h => hk h.symm
  induction l with
  | nil => simp
  | cons a t ih =>
    by_cases hak : a.1 = k
    · have h2 : ¬a.1 = k' := by rw [hak]; exact hkk
      simpa [Payload.lookup, hak, hkk, h2] using ih
    · by_cases hak' : a.1 = k'
      · simp [Payload.lookup, hak, hak', hk]
      · simpa [Payload.lookup, hak, hak'] using ih

theorem Payload.lookup_append_other (k k' : String) (v : PVal) (hk : k' ≠ k) :
    ∀ l : Payload, Payload.lookup (l ++ [(k, v)]) k' = Payload.lookup l k' := by
  intro l
  have hkk : ¬k = k' := fun h => hk h.symm
  induction l with
  | nil => simp [Payload.lookup, hkk]
  | cons a t ih =>
    by_cases hak' : a.1 = k'
    · simp [Payload.lookup, hak']
    · simpa [Payload.lookup, hak'] using ih

theorem Payload.lookup_set_other (k k' : String) (v : PVal) (hk : k' ≠ k) :
    ∀ pl : Payload, Payload.lookup (Payload.set pl k v) k' = Payload.lookup pl k' := by
  intro pl
  by_cases h : (pl.any fun p => p.1 == k) = true
  · rw [Payload.set_of_hit k v pl h]
    exact Payload.lookup_map_set_other k k' v hk pl
  · have hf : (pl.any fun p => p.1 == k) = false := by
      simp only [Bool.not_eq_true] at h
      exact h
    rw [Payload.set_of_no_hit k v pl hf]
    exact Payload.lookup_append_other k k' v hk pl

theorem paginateGo_payload_eq (fetch : Nat → PageResult α) :
    ∀ (fuel page : Nat) (acc : List α) (pl : Payload), 0 < fuel →
      (paginateGo fetch fuel page acc pl).payload
        = Payload.set pl "_page"
            (PVal.n (page + (paginateGo fetch fuel page acc pl).requests - 1)) := by
  intro fuel
  induction fuel with
  | zero =>
    intro page acc pl h
    omega
  | succ fuel ih =>
    intro page acc pl _
    cases hf : fetch page with
    | err =>
      rw [paginateGo_succ_err fetch fuel page acc pl hf]
      simp
    | ok d =>
      cases d with
      | nil =>
        rw [paginateGo_succ_empty fetch fuel page acc pl hf]
        simp
      | cons r rs =>
        rw [paginateGo_succ_cons fetch fuel page acc pl r rs hf]
        cases fuel with
        | zero =>
          simp [paginateGo]
        | succ f =>
          have hstep := ih (page + 1) (acc ++ r :: rs)
            (Payload.set pl "_page" (PVal.n page)) (by omega)
          simp only []
          rw [hstep, Payload.set_set]
          congr 2
          omega

/-- Counterexample for C9: `paginate` does mutate the caller's query dict.
Calling it with a payload that has no `_page` key (here only `_perPage`)
leaves the dict with an extra `_page` entry after the call. -/
theorem paginate_mutates_payload_counterexample :
    Payload.lookup
        (paginate (fun _ => (PageResult.ok [] : PageResult Nat)) 1
          [("_perPage", PVal.n 10)]).payload "_page" = some (PVal.n 1)
    ∧ Payload.lookup ([("_perPage", PVal.n 10)] : Payload) "_page" = none
    ∧ (paginate (fun _ => (PageResult.ok [] : PageResult Nat)) 1
          [("_perPage", PVal.n 10)]).payload ≠ [("_perPage", PVal.n 10)] := by
  decide

/-- C9 (amended).  `paginate` leaves every key of the caller's query dict
other than `_page` bound to its old value, but writes the running page counter
into the dict under `_page` on every iteration, so after any call issuing at
least one request the dict's `_page` entry equals the number of the last page
requested. -/
theorem paginate_payload_effect :
    ∀ (α : Type) (fetch : Nat → PageResult α) (mp : Nat) (pl : Payload),
      (∀ k, k ≠ "_page" →
        Payload.lookup (paginate fetch mp pl).payload k = Payload.lookup pl k)
      ∧ (1 ≤ mp →
        (paginate fetch mp pl).payload
          = Payload.set pl "_page" (PVal.n (paginate fetch mp pl).requests)) := by
  intro α fetch mp pl
  cases mp with
  | zero =>
    constructor
    · intro k _
      rfl
    · intro h
      omega
  | succ m =>
    have heq := paginateGo_payload_eq fetch (m + 1) 1 [] pl (by omega)
    constructor
    · intro k hk
      show Payload.lookup (paginateGo fetch (m + 1) 1 [] pl).payload k
          = Payload.lookup pl k
      rw [heq]
      exact Payload.lookup_set_other _ _ _ hk pl
    · intro _
      have h1 : 1 + (paginateGo fetch (m + 1) 1 [] pl).requests - 1
          = (paginateGo fetch (m + 1) 1 [] pl).requests := by omega
      show (paginateGo fetch (m + 1) 1 [] pl).payload
          = Payload.set pl "_page" (PVal.n (paginateGo fetch (m + 1) 1 [] pl).requests)
      rw [heq, h1]

/-- Witness for C9 (amended): on a concrete call the `_perPage` entry is
preserved and `_page` holds the last requested page. -/
theorem paginate_payload_effect_witness :
    Payload.lookup
        (paginate (fun _ => (PageResult.ok [1] : PageResult Nat)) 2
          [("_perPage", PVal.n 10)]).payload "_perPage" = some (PVal.n 10)
    ∧ (paginate (fun _ => (PageResult.ok [1] : PageResult Nat)) 2
          [("_perPage", PVal.n 10)]).payload
      = [("_perPage", PVal.n 10), ("_page", PVal.n 2)] := by
  constructor
  · rw [(paginate_payload_effect Nat (fun _ => PageResult.ok [1]) 2
      [("_perPage", PVal.n 10)]).1 "_perPage" (by decide)]
    decide
  · rw [(paginate_payload_effect Nat (fun _ => PageResult.ok [1]) 2
      [("_perPage", PVal.n 10)]).2 (by decide)]
    decide

/-- A warehouse row as handled by the merge-upsert loaders
(`merge` in src/core/extract_chat_analysis.py and the MERGE statement of
src/core/extract_tickets.py): the natural-identifier column value paired with
the tuple of non-key column values. -/
abbrev Row := String × List String

/-- The set-based MERGE statement: every target row whose key matches a
staging row gets all non-key columns overwritten from that staging row
(WHEN MATCHED THEN UPDATE SET); staging rows whose key matches no target row
are inserted (WHEN NOT MATCHED THEN INSERT). -/
def mergeSQL (staging target : List Row) : List Row :=
  target.map (fun r =>
    match staging.find? (fun s => s.1 == r.1) with
    | some s => (r.1, s.2)
    | none => r)
  ++ staging.filter (fun s => !(target.any (fun r => r.1 == s.1)))

/-- State of the dataset during the stage-then-merge protocol: the target
table and the transient staging table. -/
structure Warehouse where
  target : List Row
  staging : List Row
deriving DecidableEq, Repr

/-- Load the batch into the staging table with WRITE_TRUNCATE (full replace). -/
def loadStagingTruncate (batch : List Row) (w : Warehouse) : Warehouse :=
  ⟨w.target, batch⟩

/-- Execute the MERGE of staging into target. -/
def runMergeStatement (w : Warehouse) : Warehouse :=
  ⟨mergeSQL w.staging w.target, w.staging⟩

/-- DROP TABLE on the staging table. -/
def dropStaging (w : Warehouse) : Warehouse := ⟨w.target, []⟩

/-- One merge-upsert of a batch: load staging (full replace), MERGE into the
target keyed on the identifier column, drop staging. -/
def mergeOp (batch : List Row) (w : Warehouse) : Warehouse :=
  dropStaging (runMergeStatement (loadStagingTruncate batch w))

def emptyWarehouse : Warehouse := ⟨[], []⟩

theorem mergeSQL_empty_target (batch : List Row) : mergeSQL batch [] = batch := by
  simp [mergeSQL]

theorem find?_self_of_nodup :
    ∀ batch : List Row, (batch.map Prod.fst).Nodup →
      ∀ r ∈ batch, batch.find? (fun s => s.1 == r.1) = some r := by
  intro batch
  induction batch with
  | nil =>
    intro _ r hr
    simp at hr
  | cons a l ih =>
    intro h r hr
    simp only [List.map_cons, List.nodup_cons] at h
    rcases List.mem_cons.mp hr with rfl | hr'
    · exact List.find?_cons_of_pos l (by simp)
    · have hne : ¬(a.1 == r.1) = true := by
        simp only [beq_iff_eq]
        intro he
        exact h.1 (he ▸ List.mem_map_of_mem Prod.fst hr')
      rw [List.find?_cons_of_neg l hne]
      exact ih h.2 r hr'

theorem mergeSQL_filter_self (batch : List Row) :
    batch.filter (fun s => !(batch.any (fun r => r.1 == s.1))) = [] := by
  rw [List.filter_eq_nil_iff]
  intro s hs
  have h : (batch.any fun r => r.1 == s.1) = true :=
    List.any_eq_true.mpr ⟨s, hs, by simp⟩
  simp [h]

theorem mergeSQL_self (batch : List Row) (h : (batch.map Prod.fst).Nodup) :
    mergeSQL batch batch = batch := by
  unfold mergeSQL
  rw [mergeSQL_filter_self, List.append_nil]
  have hmap : ∀ r ∈ batch,
      (match batch.find? (fun s => s.1 == r.1) with
       | some s => (r.1, s.2)
       | none => r) = id r := by
    intro r hr
    rw [find?_self_of_nodup batch h r hr]
    exact Prod.mk.eta
  rw [List.map_congr_left hmap, List.map_id]

/-- C3.  Merge-upsert is idempotent: for every batch with pairwise-distinct
key values, applying the stage-load / MERGE / drop-staging pipeline twice to
an initially empty target yields exactly the same warehouse state — hence the
same row count and row contents — as applying it once. -/
theorem merge_upsert_idempotent :
    ∀ batch : List Row, (batch.map Prod.fst).Nodup →
      mergeOp batch (mergeOp batch emptyWarehouse) = mergeOp batch emptyWarehouse
      ∧ (mergeOp batch (mergeOp batch emptyWarehouse)).target.length
          = (mergeOp batch emptyWarehouse).target.length := by
  intro batch h
  have h1 : mergeOp batch emptyWarehouse = ⟨batch, []⟩ := by
    simp [mergeOp, dropStaging, runMergeStatement, loadStagingTruncate,
      emptyWarehouse, mergeSQL_empty_target]
  have h2 : mergeOp batch ⟨batch, []⟩ = ⟨batch, []⟩ := by
    simp [mergeOp, dropStaging, runMergeStatement, loadStagingTruncate,
      mergeSQL_self batch h]
  rw [h1, h2]
  exact ⟨rfl, rfl⟩

/-- Witness for C3: a concrete two-row batch with distinct keys. -/
theorem merge_upsert_idempotent_witness :
    mergeOp [("a", ["1"]), ("b", ["2"])]
        (mergeOp [("a", ["1"]), ("b", ["2"])] emptyWarehouse)
      = mergeOp [("a", ["1"]), ("b", ["2"])] emptyWarehouse :=
  (merge_upsert_idempotent [("a", ["1"]), ("b", ["2"])] (by decide)).1

/-- pandas `Timestamp.floor("h")` for a time measured in whole seconds on a
linear clock. -/
def floorHour (t : Nat) : Nat := t - t % 3600

/-- Start of the DATE_CHANGED window of `set_filter`
(src/utils/date_utils.py line 27): the reference time floored to the hour. -/
def changedWindowStart (t : Nat) : Nat := floorHour t

/-- End of the DATE_CHANGED window of `set_filter`
(src/utils/date_utils.py line 28): start plus six hours minus one second. -/
def changedWindowEnd (t : Nat) : Nat := floorHour t + 6 * 3600 - 1

/-- The DATE_CHANGED branch of `set_filter` (src/utils/date_utils.py lines
26 to 32): the emitted filter is a pair of `D>=` / `D<=` conditions on the
change-timestamp field bounding the window.  Timestamps are modelled as
seconds on a linear clock; the calendar-month DATE_CREATED branch is not
exercised by the claims. -/
def set_filter_changed (t : Nat) : List (String × String × Nat) :=
  [("date_changed", "D>=", changedWindowStart t),
   ("date_changed", "D<=", changedWindowEnd t)]

/-- Clock reading for hour h, minute m, second s of a day (seconds since
midnight). -/
def hms (h m s : Nat) : Nat := h * 3600 + m * 60 + s

/-- Membership of instant x in the DATE_CHANGED window for reference time t. -/
def inChangedWindow (t x : Nat) : Prop :=
  changedWindowStart t ≤ x ∧ x ≤ changedWindowEnd t

instance (t x : Nat) : Decidable (inChangedWindow t x) := by
  unfold inChangedWindow
  infer_instance

/-- C4.  The change-timestamp window is the reference time floored to the
hour through that floor plus six hours minus one second; the example
reference 15:02:33 yields 15:00:00 through 20:59:59; and the windows for
reference times t and t plus six hours share no instant. -/
theorem set_filter_changed_window :
    (∀ t, set_filter_changed t
      = [("date_changed", "D>=", floorHour t),
         ("date_changed", "D<=", floorHour t + 6 * 3600 - 1)])
    ∧ (changedWindowStart (hms 15 2 33) = hms 15 0 0
       ∧ changedWindowEnd (hms 15 2 33) = hms 20 59 59)
    ∧ (∀ t x, inChangedWindow t x → ¬inChangedWindow (t + 6 * 3600) x) := by
  refine ⟨fun t => rfl, ⟨by decide, by decide⟩, ?_⟩
  intro t x hx
  unfold inChangedWindow changedWindowStart changedWindowEnd floorHour at hx ⊢
  omega

/-- Witness for C4: 15:30:00 lies in the window of reference 15:02:33, so by
the disjointness conjunct it cannot lie in the window six hours later. -/
theorem set_filter_changed_window_witness :
    ¬inChangedWindow (hms 15 2 33 + 6 * 3600) (hms 15 30 0) :=
  set_filter_changed_window.2.2 (hms 15 2 33) (hms 15 30 0) (by decide)

/-- The in-memory agent cache (a Python dict id → display name) as an
association list. -/
def cacheLookup (cache : List (String × String)) (k : String) : Option String :=
  (cache.find? (fun p => p.1 == k)).map (fun p => p.2)

/-- `LiveAgentClient.determine_sender_receiver` (src/core/liveagent.py lines
163 to 172).  The reserved system identifier is the literal "system00"; the
unknown-agent sentinel is the source's literal "Unkown Agent". -/
def determine_sender_receiver (cache : List (String × String))
    (userid owner_name agentid : String) : String × String × String × String :=
  if userid = "system00" then
    ("system", "system", owner_name, "client")
  else
    match cacheLookup cache userid with
    | some agent_name => (agent_name, "agent", owner_name, "client")
    | none => (owner_name, "client",
        (cacheLookup cache agentid).getD "Unkown Agent", "agent")

/-- C5.  Sender/receiver resolution: the reserved system id gives sender
("system", role "system") and receiver (owner, role "client"); a cached
acting user gives sender (cached name, role "agent") and receiver (owner,
role "client"); otherwise sender is the owner as "client" and the receiver is
the cached name of the assigned agent, defaulting to the unknown-agent
sentinel when the agent id is not cached. -/
theorem determine_sender_receiver_spec :
    ∀ (cache : List (String × String)) (u o a : String),
      (u = "system00" →
        determine_sender_receiver cache u o a = ("system", "system", o, "client"))
      ∧ (∀ name, u ≠ "system00" → cacheLookup cache u = some name →
        determine_sender_receiver cache u o a = (name, "agent", o, "client"))
      ∧ (u ≠ "system00" → cacheLookup cache u = none →
        determine_sender_receiver cache u o a
          = (o, "client", (cacheLookup cache a).getD "Unkown Agent", "agent")) := by
  intro cache u o a
  refine ⟨?_, ?_, ?_⟩
  · intro h
    simp [determine_sender_receiver, h]
  · intro name h hn
    simp [determine_sender_receiver, h, hn]
  · intro h hn
    simp [determine_sender_receiver, h, hn]

/-- Witness for C5: all three branches on a concrete one-agent cache. -/
theorem determine_sender_receiver_witness :
    determine_sender_receiver [("u1", "Alice")] "system00" "Owner" "u1"
      = ("system", "system", "Owner", "client")
    ∧ determine_sender_receiver [("u1", "Alice")] "u1" "Owner" "u9"
      = ("Alice", "agent", "Owner", "client")
    ∧ determine_sender_receiver [("u1", "Alice")] "u7" "Owner" "u1"
      = ("Owner", "client", "Alice", "agent") := by
  refine ⟨?_, ?_, ?_⟩
  · exact (determine_sender_receiver_spec [("u1", "Alice")] "system00" "Owner" "u1").1
      rfl
  · exact (determine_sender_receiver_spec [("u1", "Alice")] "u1" "Owner" "u9").2.1
      "Alice" (by decide) (by decide)
  · rw [(determine_sender_receiver_spec [("u1", "Alice")] "u7" "Owner" "u1").2.2
      (by decide) (by decide)]
    decide

/-- Geographic level of a gazetteer row (`geo_level` column of the
address_location_psgc table): municipality/city, province/district, or the
barangay-level rows reached through them. -/
inductive GeoLevel where
  | municity
  | provdist
  | brgy
deriving DecidableEq, Repr

/-- One row of the warehouse-resident gazetteer as used by `geocode`
(src/utils/geocoding_utils.py): address text, level, the codes linking
barangay rows to their municipality and province, and coordinates. -/
structure GazRow where
  address : String
  geo_level : GeoLevel
  municity_code : Nat
  provdist_code : Nat
  latitude : Int
  longitude : Int
deriving DecidableEq, Repr

/-- `clean_str` (src/utils/geocoding_utils.py lines 17 to 22): replace the
two spellings of the enye character by n, then lower-case. -/
def clean_str (s : String) : String :=
  ((s.replace "ñ" "n").replace "ã±" "n").toLower

/-- Where a geocoding result came from: the local gazetteer ("database"), the
primary external geocoder (OSM Nominatim), or the secondary one (Photon). -/
inductive GeoSource where
  | database
  | osm
  | photon
deriving DecidableEq, Repr

/-- The dictionary returned by `geocode` / `fallback_geocode`. -/
structure GeoResult where
  input_address : String
  address : String
  latitude : Int
  longitude : Int
  score : Rat
  source : GeoSource
deriving DecidableEq, Repr

/-- The two external geocoders as response oracles: query string in,
optional (latitude, longitude) out.  A `none` models both an empty result
list and nothing usable. -/
structure ExtGeocoders where
  osm : String → Option (Int × Int)
  photon : String → Option (Int × Int)

/-- Observable outcome of one `geocode` call: the returned value, which
external queries were issued (and with what string), the instant the OSM
request went out, and the value of the module-global `time_osm` afterwards. -/
structure GeoOutcome where
  result : Option GeoResult
  osmQuery : Option String
  osmCallTime : Option Rat
  photonQuery : Option String
  timeOsm : Option Rat
deriving Repr

/-- Is a gazetteer row at municipality/province level (the stage-1 candidate
set `df_bq_munprov`)?  -/
def munprovLevel : GeoLevel → Bool
  | GeoLevel.municity => true
  | GeoLevel.provdist => true
  | GeoLevel.brgy => false

/-- Similarity score of the input address against a gazetteer row:
`similarity(clean_str(address), row.address_cleaned, n)` where the n-gram
size n (a fixed function of the input length) is absorbed into the supplied
similarity oracle `sim`. -/
def rowScore (sim : String → String → Rat) (address : String) (r : GazRow) : Rat :=
  sim (clean_str address) (clean_str r.address)

/-- Stage 1 of the local match: municipality/province rows with nonzero
similarity (`df_munprov` after the score filter). -/
def stage1Rows (gaz : List GazRow) (sim : String → String → Rat)
    (address : String) : List GazRow :=
  gaz.filter (fun r => munprovLevel r.geo_level
    && decide (rowScore sim address r ≠ 0))

/-- Does gazetteer row r belong to the municipality or province of stage-1
row s (the `conds` accumulation)?  Stage-1 rows are municipality or province
rows by construction, so the barangay branch (which would raise ValueError in
the source) is unreachable. -/
def condMatch (s r : GazRow) : Bool :=
  match s.geo_level with
  | GeoLevel.municity => r.municity_code == s.municity_code
  | GeoLevel.provdist => r.provdist_code == s.provdist_code
  | GeoLevel.brgy => false

/-- Stage 2 of the local match: every gazetteer row (`df_bq[conds]`) in a
municipality or province matched at stage 1, in gazetteer order. -/
def stage2Rows (gaz : List GazRow) (sim : String → String → Rat)
    (address : String) : List GazRow :=
  gaz.filter (fun r => (stage1Rows gaz sim address).any (fun s => condMatch s r))

/-- The stage-2 candidate chosen by `sort_values(by="score", ascending=False)`
followed by `iloc[0]`: the first row (in gazetteer order, as the sort is
stable) among those of maximal score; `none` when there are no candidates. -/
def bestLocal (gaz : List GazRow) (sim : String → String → Rat)
    (address : String) : Option GazRow :=
  (stage2Rows gaz sim address).foldl
    (fun best r =>
      match best with
      | none => some r
      | some b => if rowScore sim address r > rowScore sim address b then some r
          else some b)
    none

/-- `fallback_geocode` (src/utils/geocoding_utils.py lines 99 to 135): append
", Philippines", sleep whatever remains of the 1.25 second minimum gap since
the previous OSM call (no sleep at all when `time_osm` is still unset, since
the NameError is swallowed), call OSM, record `time_osm`, and call Photon
only when OSM returned nothing.  The request itself is treated as
instantaneous, so the recorded `time_osm` equals the call instant. -/
def fallback_geocode (ext : ExtGeocoders) (address : String) (now : Rat)
    (timeOsm : Option Rat) : GeoOutcome :=
  let q := address ++ ", Philippines"
  let callT : Rat :=
    match timeOsm with
    | none => now
    | some t0 => max now (t0 + 5/4)
  match ext.osm q with
  | some c =>
    ⟨some ⟨address, q, c.1, c.2, 0, GeoSource.osm⟩, some q, some callT, none,
      some callT⟩
  | none =>
    match ext.photon q with
    | some c =>
      ⟨some ⟨address, q, c.1, c.2, 0, GeoSource.photon⟩, some q, some callT,
        some q, some callT⟩
    | none => ⟨none, some q, some callT, some q, some callT⟩

/-- `geocode` (src/utils/geocoding_utils.py lines 59 to 97): empty input
returns nothing; otherwise the two-stage local match runs, and the top
candidate is returned as a database hit when its score reaches 0.1, else the
external fallback chain runs. -/
def geocode (ext : ExtGeocoders) (gaz : List GazRow)
    (sim : String → String → Rat) (address : String) (now : Rat)
    (timeOsm : Option Rat) : GeoOutcome :=
  if address = "" then ⟨none, none, none, none, timeOsm⟩
  else
    match bestLocal gaz sim address with
    | some b =>
      if rowScore sim address b ≥ 1/10 then
        ⟨some ⟨address, b.address, b.latitude, b.longitude, rowScore sim address b,
          GeoSource.database⟩, none, none, none, timeOsm⟩
      else fallback_geocode ext address now timeOsm
    | none => fallback_geocode ext address now timeOsm

theorem fallback_geocode_props (ext : ExtGeocoders) (address : String)
    (now : Rat) (t0 : Option Rat) :
    (fallback_geocode ext address now t0).osmQuery
        = some (address ++ ", Philippines")
    ∧ (∀ t, t0 = some t →
        ∃ ct, (fallback_geocode ext address now t0).osmCallTime = some ct
          ∧ t + 5/4 ≤ ct)
    ∧ ((fallback_geocode ext address now t0).photonQuery
          = some (address ++ ", Philippines")
        ↔ ext.osm (address ++ ", Philippines") = none)
    ∧ ((fallback_geocode ext address now t0).result = none
        ↔ ext.osm (address ++ ", Philippines") = none
          ∧ ext.photon (address ++ ", Philippines") = none) := by
  have hct : ∀ t, t0 = some t →
      t + 5/4 ≤ (match t0 with
        | none => now
        | some u => max now (u + 5/4) : Rat) := by
    intro t ht
    rw [ht]
    exact le_max_right now (t + 5/4)
  cases ho : ext.osm (address ++ ", Philippines") with
  | some c =>
    refine ⟨?_, ?_, ?_, ?_⟩
    · simp [fallback_geocode, ho]
    · intro t ht
      refine ⟨_, ?_, hct t ht⟩
      simp [fallback_geocode, ho]
    · simp [fallback_geocode, ho]
    · simp [fallback_geocode, ho]
  | none =>
    cases hp : ext.photon (address ++ ", Philippines") with
    | some c =>
      refine ⟨?_, ?_, ?_, ?_⟩
      · simp [fallback_geocode, ho, hp]
      · intro t ht
        refine ⟨_, ?_, hct t ht⟩
        simp [fallback_geocode, ho, hp]
      · simp [fallback_geocode, ho, hp]
      · simp [fallback_geocode, ho, hp]
    | none =>
      refine ⟨?_, ?_, ?_, ?_⟩
      · simp [fallback_geocode, ho, hp]
      · intro t ht
        refine ⟨_, ?_, hct t ht⟩
        simp [fallback_geocode, ho, hp]
      · simp [fallback_geocode, ho, hp]
      · simp [fallback_geocode, ho, hp]

/-- C6.  For a non-empty address: when the best stage-2 local candidate
scores at least 0.1, `geocode` returns it tagged as a database hit and issues
no external query at all; otherwise (score below 0.1 or no local candidates)
it queries the primary external geocoder with ", Philippines" appended,
enforcing the 1.25 second minimum gap since the previous external call,
queries the secondary geocoder exactly when the primary returns nothing, and
returns nothing exactly when both external geocoders fail. -/
theorem geocode_threshold_and_fallback :
    ∀ (ext : ExtGeocoders) (gaz : List GazRow) (sim : String → String → Rat)
      (address : String) (now : Rat) (t0 : Option Rat), address ≠ "" →
      (∀ b, bestLocal gaz sim address = some b → rowScore sim address b ≥ 1/10 →
        geocode ext gaz sim address now t0
          = ⟨some ⟨address, b.address, b.latitude, b.longitude,
              rowScore sim address b, GeoSource.database⟩, none, none, none, t0⟩)
      ∧ ((bestLocal gaz sim address = none
          ∨ ∃ b, bestLocal gaz sim address = some b
              ∧ rowScore sim address b < 1/10) →
        (geocode ext gaz sim address now t0).osmQuery
            = some (address ++ ", Philippines")
        ∧ (∀ t, t0 = some t →
            ∃ ct, (geocode ext gaz sim address now t0).osmCallTime = some ct
              ∧ t + 5/4 ≤ ct)
        ∧ ((geocode ext gaz sim address now t0).photonQuery
              = some (address ++ ", Philippines")
            ↔ ext.osm (address ++ ", Philippines") = none)
        ∧ ((geocode ext gaz sim address now t0).result = none
            ↔ ext.osm (address ++ ", Philippines") = none
              ∧ ext.photon (address ++ ", Philippines") = none)) := by
  intro ext gaz sim address now t0 haddr
  constructor
  · intro b hb hs
    simp [geocode, haddr, hb, hs]
    intro hcon
    exact absurd hcon (by simpa using not_lt.mpr hs)
  · intro hfall
    have hge : geocode ext gaz sim address now t0
        = fallback_geocode ext address now t0 := by
      rcases hfall with hnone | ⟨b, hb, hs⟩
      · simp [geocode, haddr, hnone]
      · have hlt : ¬rowScore sim address b ≥ 1/10 := not_le.mpr hs
        simp [geocode, haddr, hb, hlt]
        intro hcon
        exact absurd hcon (by simpa using hlt)
    rw [hge]
    exact fallback_geocode_props ext address now t0

/-- Witness for C6: with an empty gazetteer (no local candidates) and both
external geocoders failing, the OSM query carries the ", Philippines" suffix
and respects the minimum gap after a previous call at instant 2. -/
theorem geocode_threshold_and_fallback_witness :
    (geocode ⟨fun _ => none, fun _ => none⟩ [] (fun _ _ => 0) "makati" 10
        (some 2)).osmQuery = some "makati, Philippines"
    ∧ (∃ ct, (geocode ⟨fun _ => none, fun _ => none⟩ [] (fun _ _ => 0) "makati"
        10 (some 2)).osmCallTime = some ct ∧ (2 : Rat) + 5/4 ≤ ct)
    ∧ (geocode ⟨fun _ => none, fun _ => none⟩ [] (fun _ _ => 0) "makati" 10
        (some 2)).result = none := by
  obtain ⟨h1, h2, _, h4⟩ :=
    (geocode_threshold_and_fallback ⟨fun _ => none, fun _ => none⟩ []
      (fun _ _ => 0) "makati" 10 (some 2) (by decide)).2 (Or.inl rfl)
  exact ⟨h1, h2 2 rfl, h4.mpr ⟨rfl, rfl⟩⟩

/-- Scalar JSON value in a parsed LLM response dictionary. -/
inductive JsonVal where
  | null
  | str (s : String)
  | num (n : Int)
deriving DecidableEq, Repr

/-- Field list of `ConvoDataExtract.ResponseSchema`, in declaration order
(src/core/convodataextract.py lines 25 to 39). -/
def responseSchemaFields : List String :=
  ["purpose", "summary", "intent_rating", "engagement_rating", "clarity_rating",
   "resolution_rating", "sentiment_rating", "location", "schedule_date",
   "schedule_time", "car", "inspection", "quotation", "service_category"]

/-- The literal null dictionary built by the except branch of
`ConvoDataExtract.analyze_convo` (src/core/convodataextract.py lines 202 to
215), keys in source order. -/
def analyzeFailureFields : List (String × JsonVal) :=
  [("purpose", JsonVal.null), ("car", JsonVal.null), ("location", JsonVal.null),
   ("summary", JsonVal.null), ("intent_rating", JsonVal.null),
   ("engagement_rating", JsonVal.null), ("clarity_rating", JsonVal.null),
   ("resolution_rating", JsonVal.null), ("sentiment_rating", JsonVal.null)]

/-- The dictionary `analyze_convo` returns: the `data` field map and the
`tokens` count. -/
structure AnalysisOutput where
  data : List (String × JsonVal)
  tokens : Nat
deriving DecidableEq, Repr

/-- `ConvoDataExtract.analyze_convo` (src/core/convodataextract.py lines 179
to 217).  `llm = some (content, totalTokens)` models a successful structured
output call (the parsed JSON content and the provider-reported total token
usage); `llm = none` models an exception of any kind during the call, for
which the fixed null dictionary is returned together with
`count_tokens(self.prompt)` — the tokenized length of the prompt, supplied
here as `promptTokens`. -/
def analyze_convo (llm : Option (List (String × JsonVal) × Nat))
    (promptTokens : Nat) : AnalysisOutput :=
  match llm with
  | some p => ⟨p.1, p.2⟩
  | none => ⟨analyzeFailureFields, promptTokens⟩

/-- Key read on a parsed response dictionary. -/
def lookupField (data : List (String × JsonVal)) (k : String) : Option JsonVal :=
  (data.find? (fun p => p.1 == k)).map (fun p => p.2)

/-- Per-conversation outcome of `process_single_chat`
(src/core/extract_chat_analysis.py lines 16 to 32): either the extractor
completed — which includes the in-extractor LLM-failure fallback of
`analyze_convo` — or some other exception was raised and caught. -/
inductive ChatOutcome where
  | ok (out : AnalysisOutput)
  | crashed
deriving DecidableEq, Repr

/-- Rows contributed by one conversation: one row on completion, an empty
frame when the catch-all except fired. -/
def singleChatRows : ChatOutcome → List AnalysisOutput
  | ChatOutcome.ok out => [out]
  | ChatOutcome.crashed => []

/-- `process_chat` (src/core/extract_chat_analysis.py lines 34 to 42):
`asyncio.gather` collects every conversation's frame and the frames are
concatenated, each task being independent of the others. -/
def process_chat (outcomes : List ChatOutcome) : List AnalysisOutput :=
  (outcomes.map singleChatRows).flatten

/-- C1.  On an LLM extraction failure the code emits a row whose token count
is the tokenized prompt length, every field the row does carry is null, and
the failure never aborts the other conversations of the batch (the rows of a
batch are the concatenation of each conversation's rows, unconditionally).
However the failure row carries only nine of the fourteen `ResponseSchema`
fields: `service_category` — like `schedule_date`, `schedule_time`,
`inspection` and `quotation` — is absent from the row rather than null, so
the claim that every extracted structured field is null fails on the code at
this input. -/
theorem analyze_convo_failure_row :
    (∀ promptTokens, (analyze_convo none promptTokens).tokens = promptTokens)
    ∧ ((analyze_convo none 0).data.all (fun p => p.2 == JsonVal.null)) = true
    ∧ ("service_category" ∈ responseSchemaFields
        ∧ lookupField (analyze_convo none 0).data "service_category" = none
        ∧ (analyze_convo none 0).data.length + 5 = responseSchemaFields.length)
    ∧ (∀ pre post o, process_chat (pre ++ o :: post)
        = process_chat pre ++ singleChatRows o ++ process_chat post) := by
  refine ⟨fun _ => rfl, by decide, ⟨by decide, by decide, by decide⟩, ?_⟩
  intro pre post o
  simp [process_chat]

/-- Result frame of a warehouse id query, as the pandas DataFrame that
`sql_query_bq` returns in `get_existing` / `get_from_run`
(src/core/extraction_log.py lines 30 to 55): the column labels and the id
column's values. -/
structure IdFrame where
  columns : List String
  values : List String
deriving DecidableEq, Repr

/-- Python membership `x in df` on a pandas DataFrame: it tests x against the
frame's COLUMN LABELS, not against any column's values. -/
def dfContains (df : IdFrame) (x : String) : Bool := df.columns.contains x

/-- `no_tickets_new` of `extract_and_load_logs` (src/core/extraction_log.py
line 100): run ids counted with `ticket_id not in existing_ticket_ids`, where
`existing_ticket_ids` is the whole DataFrame. -/
def no_tickets_new (runIds : List String) (existing : IdFrame) : Nat :=
  (runIds.filter (fun t => !(dfContains existing t))).length

/-- `no_tickets_update` (src/core/extraction_log.py line 101). -/
def no_tickets_update (runIds : List String) (existing : IdFrame) : Nat :=
  (runIds.filter (fun t => dfContains existing t)).length

/-- `no_tickets_total` (src/core/extraction_log.py line 102). -/
def no_tickets_total (runIds : List String) (existing : IdFrame) : Nat :=
  no_tickets_new runIds existing + no_tickets_update runIds existing

/-- The counting the claim and spec describe: membership of each run id in
the SET OF ID VALUES already present in the warehouse table. -/
def countNewByIds (runIds existingIds : List String) : Nat :=
  (runIds.filter (fun t => !(existingIds.contains t))).length

/-- Set-membership count of updated ids, per the claim. -/
def countUpdateByIds (runIds existingIds : List String) : Nat :=
  (runIds.filter (fun t => existingIds.contains t)).length

/-- C7.  Evaluation at the failing input: the warehouse tickets table already
holds id "t1" (frame with column label "id" and value "t1") and the current
run touched exactly "t1".  The code counts it as new (1 new, 0 updated)
because `in` on a DataFrame tests column labels, while the id-set membership
the claim describes counts it as updated (0 new, 1 updated).  Only the
total = new + updated part of the claim holds of the code. -/
theorem extraction_log_counts_bug :
    no_tickets_new ["t1"] ⟨["id"], ["t1"]⟩ = 1
    ∧ no_tickets_update ["t1"] ⟨["id"], ["t1"]⟩ = 0
    ∧ countNewByIds ["t1"] ["t1"] = 0
    ∧ countUpdateByIds ["t1"] ["t1"] = 1
    ∧ (∀ runIds existing, no_tickets_total runIds existing = runIds.length) := by
  refine ⟨by decide, by decide, by decide, by decide, ?_⟩
  intro runIds existing
  unfold no_tickets_total no_tickets_new no_tickets_update
  induction runIds with
  | nil => simp
  | cons a l ih =>
    cases h : dfContains existing a
    · simp [List.filter_cons, h]
      omega
    · simp [List.filter_cons, h]
      omega

/-- Python `\\s` whitespace characters. -/
def pyIsSpace (c : Char) : Bool :=
  c == ' ' || c == '\t' || c == '\n' || c == '\r' || c == '\x0b' || c == '\x0c'

/-- Prefix test on character lists. -/
def isPrefixList : List Char → List Char → Bool
  | [], _ => true
  | _ :: _, [] => false
  | p :: ps, c :: cs => p == c && isPrefixList ps cs

/-- Python `str.replace(pat, rep)` for a non-empty pattern: scan left to
right, replacing non-overlapping occurrences.  The fuel is the length of the
text, which bounds the number of scan steps. -/
def replaceFuel (pat rep : List Char) : Nat → List Char → List Char
  | 0, s => s
  | _ + 1, [] => []
  | fuel + 1, c :: cs =>
    if isPrefixList pat (c :: cs) then
      rep ++ replaceFuel pat rep fuel ((c :: cs).drop pat.length)
    else c :: replaceFuel pat rep fuel cs

/-- Split a character list into its maximal whitespace-free words. -/
def wordsAux : List Char → List Char → List (List Char)
  | [], cur => if cur.isEmpty then [] else [cur.reverse]
  | c :: cs, cur =>
    if pyIsSpace c then
      if cur.isEmpty then wordsAux cs [] else cur.reverse :: wordsAux cs []
    else wordsAux cs (c :: cur)

/-- Join words with single spaces: together with `wordsAux` this is
`re.sub(r"\s+", " ", t).strip()`. -/
def joinSpace : List (List Char) → List Char
  | [] => []
  | [w] => w
  | w :: ws => w ++ ' ' :: joinSpace ws

/-- `normalize_location` (src/utils/geocoding_utils.py lines 137 to 149) on
str input.  The leading latin-1 encode / utf-8 decode round-trip is the
identity on ASCII text and is modelled as such.  Then: lower-case, delete
every character that is neither a lower-case letter nor whitespace, replace
the substrings "city of" and "municipality of" by nothing and the substrings
"gen" and "sto" by "general" and "santo" — unanchored, everywhere in the
string — and finally collapse whitespace runs and strip. -/
def normalize_location (text : String) : String :=
  let t1 := text.toList.map Char.toLower
  let t2 := t1.filter (fun c => ('a' ≤ c && c ≤ 'z') || pyIsSpace c)
  let t3 := replaceFuel "city of".toList [] t2.length t2
  let t4 := replaceFuel "municipality of".toList [] t3.length t3
  let t5 := replaceFuel "gen".toList "general".toList t4.length t4
  let t6 := replaceFuel "sto".toList "santo".toList t5.length t5
  String.mk (joinSpace (wordsAux t6 []))

/-- C10.  `normalize_location` is not idempotent: the abbreviation rule
rewrites the substring "gen" inside the word "general" that it itself
produced, so a second application changes the string again.  On
"general trias" one application gives "generaleral trias" and a second gives
"generaleraleral trias". -/
theorem normalize_location_not_idempotent :
    normalize_location (normalize_location "general trias")
      ≠ normalize_location "general trias" := by
  decide

/-- Phase of one enrichment task in the fan-out of `process_chat`:
not yet inside the semaphore-guarded body, inside it (the LLM extraction is
in flight), or done. -/
inductive Phase where
  | pending
  | running
  | finished
deriving DecidableEq, Repr

/-- State of a batch of enrichment tasks, one phase per task. -/
abbrev EnrichState := List Phase

/-- Number of enrichment tasks currently inside the guarded body. -/
def inFlight (s : EnrichState) : Nat := s.countP (fun p => p == Phase.running)

/-- One cooperative-scheduler step of the fan-out of `process_chat`
(src/core/extract_chat_analysis.py lines 34 to 42): all tasks share one
`asyncio.Semaphore(5)`, so a pending task may enter the guarded body only
while fewer than 5 tasks are inside it; a running task may finish, releasing
its permit. -/
inductive EnrichStep : EnrichState → EnrichState → Prop where
  | acquire (s : EnrichState) (i : Nat) (hi : i < s.length)
      (hp : s.get ⟨i, hi⟩ = Phase.pending) (hcap : inFlight s < 5) :
      EnrichStep s (s.set i Phase.running)
  | finish (s : EnrichState) (i : Nat) (hi : i < s.length)
      (hp : s.get ⟨i, hi⟩ = Phase.running) :
      EnrichStep s (s.set i Phase.finished)

/-- States reachable by some interleaving of a batch of n enrichment tasks,
all initially pending. -/
def EnrichReachable (n : Nat) (s : EnrichState) : Prop :=
  Relation.ReflTransGen EnrichStep (List.replicate n Phase.pending) s

theorem inFlight_replicate_pending (n : Nat) :
    inFlight (List.replicate n Phase.pending) = 0 := by
  unfold inFlight
  rw [List.countP_eq_zero]
  intro a ha
  rw [List.mem_replicate] at ha
  simp [ha.2]

theorem inFlight_set_running :
    ∀ (s : EnrichState) (i : Nat) (hi : i < s.length),
      s.get ⟨i, hi⟩ = Phase.pending →
      inFlight (s.set i Phase.running) = inFlight s + 1 := by
  intro s
  induction s with
  | nil =>
    intro i hi
    simp at hi
  | cons a t ih =>
    intro i hi hp
    cases i with
    | zero =>
      have ha : a = Phase.pending := hp
      subst ha
      simp [inFlight, List.countP_cons]
    | succ j =>
      have hj : j < t.length := by simpa using hi
      have hp' : t.get ⟨j, hj⟩ = Phase.pending := hp
      have := ih j hj hp'
      simp only [List.set_cons_succ, inFlight, List.countP_cons] at this ⊢
      omega

theorem inFlight_set_finished :
    ∀ (s : EnrichState) (i : Nat) (hi : i < s.length),
      s.get ⟨i, hi⟩ = Phase.running →
      inFlight (s.set i Phase.finished) + 1 = inFlight s := by
  intro s
  induction s with
  | nil =>
    intro i hi
    simp at hi
  | cons a t ih =>
    intro i hi hp
    cases i with
    | zero =>
      have ha : a = Phase.running := hp
      subst ha
      simp [inFlight, List.countP_cons]
    | succ j =>
      have hj : j < t.length := by simpa using hi
      have hp' : t.get ⟨j, hj⟩ = Phase.running := hp
      have := ih j hj hp'
      simp only [List.set_cons_succ, inFlight, List.countP_cons] at this ⊢
      omega

theorem enrich_inflight_bound (n : Nat) :
    ∀ s, EnrichReachable n s → inFlight s ≤ 5 := by
  intro s h
  unfold EnrichReachable at h
  induction h with
  | refl => rw [inFlight_replicate_pending]; omega
  | tail hab hbc ih =>
    cases hbc with
    | acquire i hi hp hcap =>
      rw [inFlight_set_running _ i hi hp]
      omega
    | finish i hi hp =>
      have := inFlight_set_finished _ i hi hp
      omega

/-- An instant at which a page request is outstanding, delimited by these
trace events. -/
inductive ReqEvent where
  | start (page : Nat)
  | stop (page : Nat)
deriving DecidableEq, Repr

def isStart : ReqEvent → Bool
  | ReqEvent.start _ => true
  | ReqEvent.stop _ => false

def isStop : ReqEvent → Bool
  | ReqEvent.start _ => false
  | ReqEvent.stop _ => true

/-- Request trace of one `paginate` call that issued k page requests: the
loop body awaits each page's response before the next iteration starts
(src/core/liveagent.py lines 88 to 107), so request p completes before
request p+1 is issued. -/
def paginateTrace : Nat → Nat → List ReqEvent
  | _, 0 => []
  | firstPage, k + 1 =>
    ReqEvent.start firstPage :: ReqEvent.stop firstPage
      :: paginateTrace (firstPage + 1) k

/-- Request trace of one client run.  Every call site on one
`LiveAgentClient` instance awaits its paginate call before the next begins
(`get_agents`, `fetch_tickets`, and the per-ticket loop inside
`fetch_ticket_message` are all sequential awaits on the shared session), so
the run's trace is the concatenation of the calls' traces; `calls` lists the
request count of each call. -/
def clientTrace (calls : List Nat) : List ReqEvent :=
  (calls.map (paginateTrace 1)).flatten

/-- Number of page requests outstanding after a trace prefix. -/
def reqInFlight (tr : List ReqEvent) : Int :=
  (tr.countP isStart : Int) - (tr.countP isStop : Int)

theorem reqInFlight_append (x y : List ReqEvent) :
    reqInFlight (x ++ y) = reqInFlight x + reqInFlight y := by
  unfold reqInFlight
  rw [List.countP_append, List.countP_append]
  push_cast
  ring

theorem paginateTrace_balanced : ∀ (k p : Nat), reqInFlight (paginateTrace p k) = 0 := by
  intro k
  induction k with
  | zero =>
    intro p
    simp [paginateTrace, reqInFlight]
  | succ m ih =>
    intro p
    have := ih (p + 1)
    simp only [paginateTrace, reqInFlight, List.countP_cons, isStart, isStop]
      at this ⊢
    push_cast at this ⊢
    omega

theorem paginateTrace_take_le_one :
    ∀ (k p n : Nat), reqInFlight ((paginateTrace p k).take n) ≤ 1 := by
  intro k
  induction k with
  | zero =>
    intro p n
    simp [paginateTrace, reqInFlight]
  | succ m ih =>
    intro p n
    match n with
    | 0 => simp [reqInFlight]
    | 1 => simp [paginateTrace, reqInFlight, List.countP_cons, isStart, isStop]
    | n + 2 =>
      have := ih (p + 1) n
      simp only [paginateTrace, List.take_succ_cons, reqInFlight,
        List.countP_cons, isStart, isStop] at this ⊢
      push_cast at this ⊢
      omega

theorem clientTrace_take_le_one :
    ∀ (calls : List Nat) (n : Nat),
      reqInFlight ((clientTrace calls).take n) ≤ 1 := by
  intro calls
  induction calls with
  | nil =>
    intro n
    simp [clientTrace, reqInFlight]
  | cons c cs ih =>
    intro n
    have hsplit : clientTrace (c :: cs) = paginateTrace 1 c ++ clientTrace cs := by
      simp [clientTrace]
    rw [hsplit, List.take_append_eq_append_take, reqInFlight_append]
    rcases le_or_lt n (paginateTrace 1 c).length with hn | hn
    · have h1 : (clientTrace cs).take (n - (paginateTrace 1 c).length) = [] := by
        have : n - (paginateTrace 1 c).length = 0 := by omega
        rw [this, List.take_zero]
      rw [h1]
      have := paginateTrace_take_le_one c 1 n
      simp only [reqInFlight, List.countP_nil] at *
      omega
    · have h1 : (paginateTrace 1 c).take n = paginateTrace 1 c :=
        List.take_of_length_le (by omega)
      rw [h1, paginateTrace_balanced]
      have := ih (n - (paginateTrace 1 c).length)
      omega

/-- C8.  In the cooperative-interleaving model of the pipeline, at no
reachable instant are more than 5 enrichment LLM extraction tasks inside the
shared Semaphore(5) gate of `process_chat`; and along any prefix of a client
run's request trace at most 2 (indeed at most 1, since every pagination on a
client instance is sequentially awaited) page requests are outstanding. -/
theorem concurrency_bounds :
    (∀ (n : Nat) (s : EnrichState), EnrichReachable n s → inFlight s ≤ 5)
    ∧ (∀ (calls : List Nat) (n : Nat),
        reqInFlight ((clientTrace calls).take n) ≤ 2) := by
  constructor
  · intro n
    exact enrich_inflight_bound n
  · intro calls n
    have := clientTrace_take_le_one calls n
    omega

/-- Witness for C8: the state in which the first of two enrichment tasks has
acquired the semaphore is reachable, and its in-flight count is within the
bound. -/
theorem concurrency_bounds_witness :
    inFlight ((List.replicate 2 Phase.pending).set 0 Phase.running) ≤ 5 :=
  concurrency_bounds.1 2 ((List.replicate 2 Phase.pending).set 0 Phase.running)
    (Relation.ReflTransGen.single
      (EnrichStep.acquire (List.replicate 2 Phase.pending) 0 (by decide)
        (by decide) (by decide)))

end Mechanigo
